import Mathlib

/-!
Formal model of the `memory-vector-store` package's core: the `VectorStore`
class of `src/core/vector-store.ts`, its JS-`Map`-backed shared cache, the
cosine-similarity search, and the size-bounded persistence task.

Modelling conventions.  A JS `Map` with string keys is an insertion-ordered
association list (`set` keeps the original position of an existing key,
iteration follows insertion order).  JS numbers are modelled as rationals,
with `Option` capturing `NaN`/`undefined` where those values can actually
arise.  `async` code is modelled by explicit state passing; `add` is written
over an arbitrary monad so that the parser invocation it performs can be
observed (for example counted) by instrumenting the parser.
-/

namespace MemoryVectorStore

/-- A JS `Map` with string keys, as an insertion-ordered association list. -/
abbrev JMap (β : Type) : Type := List (String × β)

namespace JMap

/-- `Map.prototype.get`: the value at the first (in a real `Map`, only)
entry whose key equals `k`. -/
def get (m : JMap β) (k : String) : Option β :=
  (m.find? (fun e => e.1 == k)).map (·.2)

/-- `Map.prototype.has`. -/
def hasKey (m : JMap β) (k : String) : Bool :=
  m.any (fun e => e.1 == k)

/-- `Map.prototype.set`: overwrite in place when the key is present
(keeping its insertion position), otherwise append at the end. -/
def set (m : JMap β) (k : String) (v : β) : JMap β :=
  if hasKey m k then m.map (fun e => if e.1 == k then (k, v) else e)
  else m ++ [(k, v)]

/-- `Map.prototype.delete` (drops the entry keyed `k`, if any). -/
def del (m : JMap β) (k : String) : JMap β :=
  m.filter (fun e => !(e.1 == k))

theorem get_cons (e : String × β) (m : JMap β) (k : String) :
    get (e :: m) k = if e.1 = k then some e.2 else get m k := by
  by_cases h : e.1 = k
  · rw [if_pos h, get, List.find?_cons_of_pos _ (by simp [h])]; rfl
  · rw [if_neg h, get, List.find?_cons_of_neg _ (by simp [h]), get]

theorem get_eq_none_iff (m : JMap β) (k : String) :
    get m k = none ↔ k ∉ m.map (·.1) := by
  induction m with
  | nil => simp [get]
  | cons e m ih =>
    by_cases h : e.1 = k
    · simp [get_cons, h]
    · simp [get_cons, h, ih, Ne.symm h]

theorem get_map_replace (m : JMap β) (k : String) (v : β)
    (h : hasKey m k = true) :
    get (m.map (fun e => if e.1 == k then (k, v) else e)) k = some v := by
  induction m with
  | nil => simp [hasKey] at h
  | cons e m ih =>
    by_cases he : e.1 = k
    · simp [get_cons, he]
    · have h' : hasKey m k = true := by
        simpa [hasKey, List.any_cons, he] using h
      simpa [get_cons, he] using ih h'

theorem get_map_replace_ne (m : JMap β) (k k' : String) (v : β) (h : k' ≠ k) :
    get (m.map (fun e => if e.1 == k then (k, v) else e)) k' = get m k' := by
  induction m with
  | nil => rfl
  | cons e m ih =>
    simp only [List.map_cons]
    by_cases he : e.1 = k
    · rw [if_pos (by simpa using he), get_cons, get_cons,
        if_neg (fun hk => h hk.symm),
        if_neg (fun hk => h ((he.symm.trans hk).symm))]
      exact ih
    · rw [if_neg (by simpa using he), get_cons, get_cons]
      by_cases he' : e.1 = k'
      · rw [if_pos he', if_pos he']
      · rw [if_neg he', if_neg he']
        exact ih

theorem find?_eq_none_of_not_hasKey (m : JMap β) (k : String)
    (h : ¬ hasKey m k = true) :
    m.find? (fun e => e.1 == k) = none := by
  rw [List.find?_eq_none]
  intro a ha hpa
  exact h (by rw [hasKey, List.any_eq_true]; exact ⟨a, ha, hpa⟩)

theorem get_set_self (m : JMap β) (k : String) (v : β) :
    get (set m k v) k = some v := by
  rw [set]
  split
  · exact get_map_replace m k v (by assumption)
  · rename_i h
    rw [get, List.find?_append, find?_eq_none_of_not_hasKey m k h]
    simp [List.find?_cons]

theorem get_set_ne (m : JMap β) (k k' : String) (v : β) (h : k' ≠ k) :
    get (set m k v) k' = get m k' := by
  rw [set]
  split
  · exact get_map_replace_ne m k k' v h
  · rw [get, get, List.find?_append]
    have hs : List.find? (fun e => e.1 == k') [(k, v)] = none := by
      simp [List.find?_cons, Ne.symm h]
    rw [hs, Option.or_none]

theorem length_set_of_hasKey (m : JMap β) (k : String) (v : β)
    (h : hasKey m k = true) : (set m k v).length = m.length := by
  simp [set, h]

theorem set_of_not_hasKey (m : JMap β) (k : String) (v : β)
    (h : ¬ hasKey m k = true) : set m k v = m ++ [(k, v)] := by
  simp [set, h]

theorem hasKey_iff_get_isSome (m : JMap β) (k : String) :
    hasKey m k = true ↔ (get m k).isSome = true := by
  induction m with
  | nil => simp [hasKey, get]
  | cons e m ih =>
    by_cases h : e.1 = k
    · simp [hasKey, get_cons, h]
    · rw [show hasKey (e :: m) k = ((e.1 == k) || hasKey m k) from rfl,
        get_cons, if_neg h]
      simpa [h] using ih

theorem del_of_get_eq_none (m : JMap β) (k : String)
    (h : get m k = none) : del m k = m := by
  rw [get_eq_none_iff] at h
  rw [del, List.filter_eq_self]
  intro e he
  have hne : e.1 ≠ k := fun hk => h (hk ▸ List.mem_map_of_mem (·.1) he)
  simp [hne]

theorem length_del_lt_of_get_isSome (m : JMap β) (k : String)
    (h : (get m k).isSome = true) : (del m k).length < m.length := by
  rw [get] at h
  cases hf : m.find? (fun e => e.1 == k) with
  | none => rw [hf] at h; simp at h
  | some e =>
    have hmem := List.mem_of_find?_eq_some hf
    have hek := List.find?_some hf
    apply List.length_filter_lt_length_iff_exists.mpr
    exact ⟨e, hmem, by simp [hek]⟩

end JMap

/-- `MemoryDocument<T>`: text content plus optional caller metadata. -/
structure MemoryDocument (M : Type) where
  content : String
  metadata : Option M
  deriving DecidableEq, Repr

/-- The value stored in the backing map: `{ metadata?: T; vector: number[] }`.
The vector's element representation `V` is kept abstract here because `add`
never inspects vector elements (`number[]` is not validated beyond
`Array.isArray`). -/
structure StoreValue (M V : Type) where
  metadata : Option M
  vector : V
  deriving DecidableEq, Repr

/-- `StoreCache<T>`: the shared per-path state `{ dirty, store }`. -/
structure StoreCache (M V : Type) where
  dirty : Bool
  store : JMap (StoreValue M V)
  deriving DecidableEq, Repr

/-- `MemoryVectorData<T>`: the value returned by `add`. -/
structure MemoryVectorData (M V : Type) where
  document : MemoryDocument M
  vector : V
  deriving DecidableEq, Repr

/-- The runtime shape of a vector-parser result, as far as `add` inspects
it: either an array (with payload of type `V`, i.e. its element list) or a
non-array value, which is exactly what `Array.isArray` distinguishes. -/
inductive ParseResult (V : Type) where
  | arr (v : V)
  | notArr
  deriving DecidableEq, Repr

/-- A JS array element as it may come back from an unchecked parser:
a number, or some non-numeric value (modelled by its string form). -/
inductive JsElem where
  | num (q : ℚ)
  | str (s : String)
  deriving DecidableEq, Repr

/-- The `doc` helper of `src/core/vector-store.ts`. -/
def doc (content : String) (metadata : Option M) : MemoryDocument M :=
  ⟨content, metadata⟩

namespace VectorStore

/-- `VectorStore.add`, over an arbitrary monad `m` standing for the `async`
context: normalizes the input to a document, awaits the caller-supplied
parser on `d.content` (unconditionally — there is no cache consultation),
throws `'Vector parser must return an array'` when `Array.isArray` fails,
and otherwise overwrites the map entry for `d.content` and sets `dirty`.
The error case returns the state unchanged, mirroring that the source
throws before any mutation.  The `autoSave` branch (which only schedules a
debounced `save`) is modelled separately by `save`/`saveTask`. -/
def add [Monad m] (vectorParser : String → m (ParseResult V))
    (st : StoreCache M V) (document : MemoryDocument M) :
    m (StoreCache M V × Except String (MemoryVectorData M V)) := do
  let d : MemoryDocument M := doc document.content document.metadata
  let vector ← vectorParser d.content
  pure <| match vector with
    | ParseResult.notArr =>
        (st, Except.error "Vector parser must return an array")
    | ParseResult.arr v =>
        ({ dirty := true,
           store := JMap.set st.store d.content ⟨d.metadata, v⟩ },
         Except.ok ⟨d, v⟩)

/-- `add` with a pure parser result (the common instantiation `m := Id`). -/
def addPure (parsed : ParseResult V) (st : StoreCache M V)
    (document : MemoryDocument M) :
    StoreCache M V × Except String (MemoryVectorData M V) :=
  Id.run (add (fun _ => pure parsed) st document)

/-- A parser instrumented to count its own invocations, used to observe how
many times `add` calls the caller-supplied parser. -/
def countingParser (p : String → ParseResult V) :
    String → StateM Nat (ParseResult V) :=
  fun s => do
    modify (· + 1)
    pure (p s)

/-- `VectorStore.remove`: delete the entry, and mark dirty only when the
size actually changed.  (The `autoSave` branch only schedules a save.) -/
def remove (st : StoreCache M V) (content : String) : StoreCache M V :=
  let initialLength := st.store.length
  let store' := JMap.del st.store content
  if store'.length ≠ initialLength then ⟨true, store'⟩ else ⟨st.dirty, store'⟩

/-- `VectorStore.clear`: empty the map, marking dirty only if non-empty. -/
def clear (st : StoreCache M V) : StoreCache M V :=
  if 0 < st.store.length then ⟨true, []⟩ else st

/-- `VectorStore.getAll`. -/
def getAll (st : StoreCache M V) : List (MemoryDocument M) :=
  st.store.map fun e => ⟨e.1, e.2.metadata⟩

/-- `VectorStore.count`. -/
def count (st : StoreCache M V) : Nat :=
  st.store.length

/-- JS addition where `none` stands for `NaN` (or an `undefined` operand,
which yields `NaN`); `NaN` propagates through arithmetic. -/
def jsAdd : Option ℚ → Option ℚ → Option ℚ
  | some a, some b => some (a + b)
  | _, _ => none

/-- JS multiplication with the same `NaN` propagation. -/
def jsMul : Option ℚ → Option ℚ → Option ℚ
  | some a, some b => some (a * b)
  | _, _ => none

/-- The accumulation loop of `cosineSimilarity`:
`for (let i = 0; i < a.length; i++)` accumulating
`(dotProduct, normA, normB)`.  The index loop is translated structurally
over `a`, consuming `b` in lockstep; `b[i]` for `i ≥ b.length` is JS
`undefined`, whose products are `NaN` (`none`). -/
def cosineLoop : List ℚ → List ℚ → Option ℚ × Option ℚ × Option ℚ →
    Option ℚ × Option ℚ × Option ℚ
  | [], _, acc => acc
  | x :: xs, b, (d, nA, nB) =>
      cosineLoop xs b.tail
        (jsAdd d (jsMul (some x) b.head?),
         jsAdd nA (jsMul (some x) (some x)),
         jsAdd nB (jsMul b.head? b.head?))

/-- `VectorStore.cosineSimilarity` (private): zero-norm guard
(`normA === 0 || normB === 0`, which is false when the operand is `NaN`),
then `dotProduct / (Math.sqrt(normA) * Math.sqrt(normB))`.  The result is
`none` when the JS computation produces `NaN`; real-number arithmetic
idealizes IEEE doubles. -/
noncomputable def cosineSimilarity (a b : List ℚ) : Option ℝ :=
  let r := cosineLoop a b (some 0, some 0, some 0)
  if r.2.1 = some 0 ∨ r.2.2 = some 0 then some 0
  else
    match r.1, r.2.1, r.2.2 with
    | some dv, some av, some bv =>
        some ((dv : ℝ) / (Real.sqrt (av : ℝ) * Real.sqrt (bv : ℝ)))
    | _, _, _ => none

/-- Mathematical dot product of rational vectors (pairs beyond the shorter
length do not contribute). -/
def dotQ (a b : List ℚ) : ℚ :=
  (List.zipWith (fun x y => x * y) a b).sum

/-- Mathematical squared norm. -/
def normSq (a : List ℚ) : ℚ :=
  dotQ a a

/-- A search hit `{content, metadata, score}`. -/
structure SearchResult (M S : Type) where
  content : String
  metadata : Option M
  score : S
  deriving DecidableEq, Repr

/-- ECMAScript `Array.prototype.slice(0, k)` for an integer (or omitted)
end argument: `undefined` means "to the end", a negative `k` counts from
the end (`max(length + k, 0)`), and a large `k` is clamped to the
length. -/
def jsSliceTo (l : List α) (k : Option ℤ) : List α :=
  match k with
  | none => l
  | some i =>
      l.take (if i < 0 then max ((l.length : ℤ) + i) 0
              else min i (l.length : ℤ)).toNat

/-- The sort order produced by the comparator
`(a, b) => b.score - a.score`: descending by score. -/
def scoreDesc [LinearOrder S] (a b : MemoryDocument M × S) : Prop :=
  b.2 ≤ a.2

instance [LinearOrder S] : DecidableRel (scoreDesc (M := M) (S := S)) :=
  fun a b => inferInstanceAs (Decidable (b.2 ≤ a.2))

instance [LinearOrder S] : IsTotal (MemoryDocument M × S) scoreDesc :=
  ⟨fun a b => le_total b.2 a.2⟩

instance [LinearOrder S] : IsTrans (MemoryDocument M × S) scoreDesc :=
  ⟨fun _ _ _ h1 h2 => le_trans h2 h1⟩

instance [Inhabited V] : Inhabited (StoreValue M V) :=
  ⟨⟨none, default⟩⟩

/-- `VectorStore.similaritySearch`.  The await on the save gate does not
change the state and is dropped here; the query embedding is taken from
the map when `query` is itself a stored key, else it is the given parser
result `parserQueryVec`.  The score function is a parameter standing for
`cosineSimilarity`, with its result idealized as a value of a linearly
ordered score type `S` (for real scores the comparator
`(a, b) => b.score - a.score` is a consistent total preorder, and
`Array.prototype.sort` is a stable sort, modelled by insertion sort).
The non-null assertion `this.cache.store.get(item.content)!` is modelled
by `Option.iget`. -/
def similaritySearch [LinearOrder S] [Inhabited V]
    (score : V → V → S) (st : StoreCache M V)
    (query : String) (parserQueryVec : V) (k : Option ℤ)
    (filter : Option (MemoryDocument M → Bool)) : List (SearchResult M S) :=
  let queryVector : V :=
    ((JMap.get st.store query).map (·.vector)).getD parserQueryVec
  let candidates : List (MemoryDocument M) :=
    st.store.map fun e => ⟨e.1, e.2.metadata⟩
  let candidates :=
    match filter with
    | some f => candidates.filter f
    | none => candidates
  let scoredResults : List (MemoryDocument M × S) :=
    candidates.map fun item =>
      (item, score queryVector ((JMap.get st.store item.content).iget.vector))
  let sorted := List.insertionSort scoreDesc scoredResults
  (jsSliceTo sorted k).map fun r => ⟨r.1.content, r.1.metadata, r.2⟩

/-- The document part of a search hit. -/
def toDoc (r : SearchResult M S) : MemoryDocument M :=
  ⟨r.content, r.metadata⟩

/-- The surviving candidate documents of a search: all stored documents,
narrowed by the filter when one is given. -/
def survivors (st : StoreCache M V)
    (filter : Option (MemoryDocument M → Bool)) : List (MemoryDocument M) :=
  let candidates : List (MemoryDocument M) :=
    st.store.map fun e => ⟨e.1, e.2.metadata⟩
  match filter with
  | some f => candidates.filter f
  | none => candidates

/-- A serialized entry: the positional triple `[content, vector, metadata]`. -/
abbrev SerEntry (M V : Type) : Type := String × V × Option M

/-- The `serializeItem` helper of `src/core/vector-store.ts`. -/
def serializeItem (entry : String × StoreValue M V) : SerEntry M V :=
  (entry.1, entry.2.vector, entry.2.metadata)

/-- The inverse direction used by the trim rebuild and by `load`:
`{ metadata: item[2], vector: item[1] }` keyed by `item[0]`. -/
def deserializeItem (item : SerEntry M V) : String × StoreValue M V :=
  (item.1, ⟨item.2.2, item.2.1⟩)

/-- The `while (dataSize > maxSizeBytes && serializedData.length > 0)`
loop of the scheduled save task: `shift()` the front (oldest-inserted)
entry, re-serialize, and re-measure.  The byte measurement
`Buffer.byteLength(JSON.stringify(data), 'utf8')` is abstracted into the
function `size` (JSON text formatting of doubles is outside the model);
the theorems below hold for every `size`. -/
def trimLoop (size : List (SerEntry M V) → ℕ) (maxSizeBytes : ℚ) :
    List (SerEntry M V) → List (SerEntry M V)
  | [] => []
  | x :: xs =>
      if maxSizeBytes < (size (x :: xs) : ℚ) then trimLoop size maxSizeBytes xs
      else x :: xs

/-- The body of the debounced task scheduled by `VectorStore.save`
(source lines 196–237): serialize every entry, evict from the front while
the encoding exceeds `maxFileSizeMB` (in bytes; `|| 500` applies the
default on a falsy value), rebuild the backing map from the surviving
serialized entries when a trim happened, pass the final array to
`storageProvider.save`, and clear `dirty`.  Returns the new shared state
together with the data handed to the adapter. -/
def saveTask (size : List (SerEntry M V) → ℕ) (maxFileSizeMB : ℚ)
    (st : StoreCache M V) : StoreCache M V × List (SerEntry M V) :=
  let maxSizeBytes : ℚ :=
    (if maxFileSizeMB = 0 then 500 else maxFileSizeMB) * 1024 * 1024
  let serializedData := st.store.map serializeItem
  let dataSize := size serializedData
  if maxSizeBytes < (dataSize : ℚ) ∧ 0 < serializedData.length then
    let trimmed := trimLoop size maxSizeBytes serializedData
    let rebuilt := trimmed.foldl
      (fun m item => JMap.set m (deserializeItem item).1 (deserializeItem item).2) []
    (⟨false, rebuilt⟩, trimmed)
  else
    (⟨false, st.store⟩, serializedData)

/-- The synchronous prefix of `VectorStore.save` (source lines 189–195):
the `!dirty || !storagePath` guard returns a resolved promise at once;
otherwise the gate is locked and the write task is debounced.  Returns
`(cache, gate state, whether a task was scheduled)`; the adapter's `save`
is reached only inside the scheduled task, which `saveTask` models. -/
def save (st : StoreCache M V) (storagePath : String) (lockLocked : Bool) :
    StoreCache M V × Bool × Bool :=
  if st.dirty = false ∨ storagePath = "" then (st, lockLocked, false)
  else (st, true, true)

/-- The storage adapter's read half (`exists`/`load`); its `save` half is
what receives `saveTask`'s output. -/
structure StorageProvider (M V : Type) where
  existsFn : String → Bool
  loadFn : String → List (SerEntry M V)

/-- The process-wide `globalCache` registry: storage path ↦ shared state. -/
abbrev Registry (M V : Type) : Type := JMap (StoreCache M V)

/-- `VectorStore.load` (private): populate the map from the adapter when a
snapshot exists for the path.  (The catch-branch resetting the map on a
load error is not exercised here: the adapter functions are total.) -/
def load (sp : StorageProvider M V) (storagePath : String)
    (cache : StoreCache M V) : StoreCache M V :=
  if storagePath = "" then cache
  else if sp.existsFn storagePath then
    { cache with
      store := (sp.loadFn storagePath).foldl
        (fun m item => JMap.set m (deserializeItem item).1 (deserializeItem item).2)
        cache.store }
  else cache

/-- `VectorStore.initializeStore`: attach to the registered shared state
when one exists for `storagePath`; otherwise create a fresh state, fill it
through the adapter, and register it.  Returns the updated registry, the
state this handle aliases, and whether the adapter was consulted
(`exists`/`load` are reached only on the fresh-state branch). -/
def initStore (sp : StorageProvider M V) (reg : Registry M V)
    (storagePath : String) : Registry M V × StoreCache M V × Bool :=
  match JMap.get reg storagePath with
  | some cache => (reg, cache, false)
  | none =>
      let cache := load sp storagePath ⟨false, []⟩
      (JMap.set reg storagePath cache, cache, true)

/-- A mutation taken through any handle bound to `storagePath` updates the
one shared state object that every handle with that path aliases; in the
model the alias is the registry entry for the path. -/
def onPath (reg : Registry M V) (storagePath : String)
    (f : StoreCache M V → StoreCache M V) : Registry M V :=
  match JMap.get reg storagePath with
  | some cache => JMap.set reg storagePath (f cache)
  | none => reg

/-- `count()` as observed through a handle bound to `storagePath`. -/
def countAt (reg : Registry M V) (storagePath : String) : ℕ :=
  match JMap.get reg storagePath with
  | some cache => count cache
  | none => 0

/-- `getAll()` as observed through a handle bound to `storagePath`. -/
def getAllAt (reg : Registry M V) (storagePath : String) :
    List (MemoryDocument M) :=
  match JMap.get reg storagePath with
  | some cache => getAll cache
  | none => []

end VectorStore

open VectorStore

theorem addPure_arr {M V : Type} (st : StoreCache M V) (d : MemoryDocument M)
    (v : V) :
    addPure (ParseResult.arr v) st d
      = ({ dirty := true, store := JMap.set st.store d.content ⟨d.metadata, v⟩ },
         Except.ok ⟨⟨d.content, d.metadata⟩, v⟩) := rfl

theorem addPure_notArr {M V : Type} (st : StoreCache M V)
    (d : MemoryDocument M) :
    addPure (ParseResult.notArr (V := V)) st d
      = (st, Except.error "Vector parser must return an array") := rfl

/-- C5: for every store state and content string, a second `add` with
content already present overwrites that single entry's vector and metadata
with the latest parser output and metadata (last-write-wins, no merge, no
other entry touched), leaves `count()` unchanged, and returns the newly
stored document and vector. -/
theorem C5_readd_overwrites {M V : Type} (st : StoreCache M V)
    (d : MemoryDocument M) (v : V) (r0 : StoreValue M V)
    (h : JMap.get st.store d.content = some r0) :
    JMap.get (addPure (ParseResult.arr v) st d).1.store d.content
        = some ⟨d.metadata, v⟩
  ∧ count (addPure (ParseResult.arr v) st d).1 = count st
  ∧ (∀ c, c ≠ d.content →
      JMap.get (addPure (ParseResult.arr v) st d).1.store c
        = JMap.get st.store c)
  ∧ (addPure (ParseResult.arr v) st d).2
      = Except.ok ⟨⟨d.content, d.metadata⟩, v⟩ := by
  have hk : JMap.hasKey st.store d.content = true :=
    (JMap.hasKey_iff_get_isSome _ _).mpr (by simp [h])
  rw [addPure_arr]
  exact ⟨JMap.get_set_self _ _ _,
    JMap.length_set_of_hasKey _ _ _ hk,
    fun c hc => JMap.get_set_ne _ _ _ _ hc,
    rfl⟩

/-- C5 witness: re-adding `"x"` over a one-entry store replaces the vector
and metadata, keeps the count at 1, and returns the new data. -/
theorem C5_witness :
    JMap.get (addPure (ParseResult.arr [(2 : ℚ)])
        (⟨false, [("x", ⟨some "old", [1]⟩)]⟩ : StoreCache String (List ℚ))
        ⟨"x", some "new"⟩).1.store "x" = some ⟨some "new", [2]⟩
  ∧ count (addPure (ParseResult.arr [(2 : ℚ)])
        (⟨false, [("x", ⟨some "old", [1]⟩)]⟩ : StoreCache String (List ℚ))
        ⟨"x", some "new"⟩).1 = 1 :=
  ⟨(C5_readd_overwrites
      (⟨false, [("x", ⟨some "old", [1]⟩)]⟩ : StoreCache String (List ℚ))
      ⟨"x", some "new"⟩ [2] ⟨some "old", [1]⟩ rfl).1,
   ((C5_readd_overwrites
      (⟨false, [("x", ⟨some "old", [1]⟩)]⟩ : StoreCache String (List ℚ))
      ⟨"x", some "new"⟩ [2] ⟨some "old", [1]⟩ rfl).2.1).trans rfl⟩

/-- C3 counterexample: the parser returns an array containing a
non-numeric element (the string `"foo"`); contrary to the claim, `add`
does not throw — it succeeds and inserts the junk array as the entry's
vector. -/
theorem C3_counterexample :
    (addPure (V := List JsElem) (ParseResult.arr [JsElem.str "foo"])
        ⟨false, []⟩ ⟨"x", (none : Option Unit)⟩).2
      = Except.ok ⟨⟨"x", none⟩, [JsElem.str "foo"]⟩
  ∧ JMap.get (addPure (V := List JsElem) (ParseResult.arr [JsElem.str "foo"])
        ⟨false, []⟩ ⟨"x", (none : Option Unit)⟩).1.store "x"
      = some ⟨none, [JsElem.str "foo"]⟩ := by
  exact ⟨rfl, rfl⟩

/-- C3 (amended): `add` fails — with the descriptive error
`'Vector parser must return an array'`, before any mutation, so the map
and dirty flag are unchanged — exactly when the parser's result is not an
array (`Array.isArray` is the only validation); every array is accepted
regardless of its elements' types. -/
theorem C3_add_rejects_only_nonarrays {M V : Type} (st : StoreCache M V)
    (d : MemoryDocument M) :
    addPure (ParseResult.notArr (V := V)) st d
        = (st, Except.error "Vector parser must return an array")
  ∧ ∀ v : V, (addPure (ParseResult.arr v) st d).2
        = Except.ok ⟨⟨d.content, d.metadata⟩, v⟩ :=
  ⟨rfl, fun _ => rfl⟩

/-- C10: `add` invokes the caller-supplied parser exactly once with the
document's content — also when that content is already stored — and the
fresh parser output (not any cached vector) is what ends up stored. -/
theorem C10_parser_called_once {M V : Type} (p : String → ParseResult V)
    (st : StoreCache M V) (d : MemoryDocument M) :
    ((add (countingParser p) st d).run 0).2 = 1
  ∧ ∀ v : V, p d.content = ParseResult.arr v →
      JMap.get (((add (countingParser p) st d).run 0).1.1.store) d.content
        = some ⟨d.metadata, v⟩ := by
  constructor
  · cases hp : p d.content <;>
      simp only [add, countingParser, hp] <;> rfl
  · intro v hv
    have hrun : ((add (countingParser p) st d).run 0).1.1
        = { dirty := true,
            store := JMap.set st.store d.content ⟨d.metadata, v⟩ } := by
      simp only [add, countingParser, doc, hv]
      rfl
    rw [hrun]
    exact JMap.get_set_self _ _ _

/-- C10 witness: with a parser returning `[1]`, one `add` over a store
already holding `"x"` (with a different cached vector) performs exactly
one parser call and stores the fresh vector `[1]`. -/
theorem C10_witness :
    ((add (countingParser (fun _ => ParseResult.arr [(1 : ℚ)]))
        (⟨false, [("x", ⟨(none : Option Unit), [(9 : ℚ)]⟩)]⟩ : StoreCache Unit (List ℚ))
        ⟨"x", none⟩).run 0).2 = 1
  ∧ JMap.get (((add (countingParser (fun _ => ParseResult.arr [(1 : ℚ)]))
        (⟨false, [("x", ⟨(none : Option Unit), [(9 : ℚ)]⟩)]⟩ : StoreCache Unit (List ℚ))
        ⟨"x", none⟩).run 0).1.1.store) "x" = some ⟨none, [1]⟩ :=
  ⟨(C10_parser_called_once _ _ _).1,
   (C10_parser_called_once _ _ _).2 [1] rfl⟩

/-- C8: when the shared state is not dirty, or no storage path is
configured (a falsy — empty — path), `save()` resolves immediately as a
no-op: the cache (map and dirty flag) and the gate are unchanged and no
write task is scheduled, so the storage adapter's `save` is never
reached. -/
theorem C8_save_noop {M V : Type} (st : StoreCache M V) (path : String)
    (lk : Bool) (h : st.dirty = false ∨ path = "") :
    save st path lk = (st, lk, false) := by
  rw [save, if_pos h]

/-- C8 witness: a clean one-entry store with a configured path: `save`
returns everything unchanged and schedules nothing. -/
theorem C8_witness :
    save (⟨false, [("a", ⟨(none : Option Unit), [(1 : ℚ)]⟩)]⟩ : StoreCache Unit (List ℚ))
        "data.json" false
      = (⟨false, [("a", ⟨none, [1]⟩)]⟩, false, false) :=
  C8_save_noop _ _ _ (Or.inl rfl)

/-- C9: `remove` of an absent content is a no-op — the state (map and
dirty flag) is returned unchanged and no error is possible (the model
functions are total, as is the source, which contains no throw on these
paths); a `remove` of a present content deletes it and is the only case
that sets dirty; `clear` always leaves an empty map. -/
theorem C9_remove_safe {M V : Type} (st : StoreCache M V) (c : String) :
    (JMap.get st.store c = none → remove st c = st)
  ∧ ((JMap.get st.store c).isSome = true →
      (remove st c).dirty = true ∧ (remove st c).store = JMap.del st.store c)
  ∧ (clear st).store = [] := by
  refine ⟨?_, ?_, ?_⟩
  · intro h
    rw [remove]
    simp only [JMap.del_of_get_eq_none st.store c h, ne_eq,
      not_true_eq_false, if_neg, ite_false]
  · intro h
    have hlt := JMap.length_del_lt_of_get_isSome st.store c h
    rw [remove]
    simp only [ne_eq, ite_not]
    rw [if_neg (by omega)]
    exact ⟨rfl, rfl⟩
  · rw [clear]
    split
    · rfl
    · rename_i h
      have : st.store = [] := List.length_eq_zero.mp (by omega)
      simp [this]

/-- C9 witness: removing the absent `"b"` from a one-entry store returns
the state unchanged; removing the present `"a"` sets dirty and deletes
it; `clear` empties the map. -/
theorem C9_witness :
    remove (⟨false, [("a", ⟨(none : Option Unit), [(1 : ℚ)]⟩)]⟩ : StoreCache Unit (List ℚ)) "b"
        = ⟨false, [("a", ⟨none, [1]⟩)]⟩
  ∧ (remove (⟨false, [("a", ⟨(none : Option Unit), [(1 : ℚ)]⟩)]⟩ : StoreCache Unit (List ℚ)) "a").dirty
        = true
  ∧ (clear (⟨false, [("a", ⟨(none : Option Unit), [(1 : ℚ)]⟩)]⟩ : StoreCache Unit (List ℚ))).store
        = [] :=
  ⟨(C9_remove_safe
      (⟨false, [("a", ⟨(none : Option Unit), [(1 : ℚ)]⟩)]⟩ : StoreCache Unit (List ℚ)) "b").1 rfl,
   ((C9_remove_safe
      (⟨false, [("a", ⟨(none : Option Unit), [(1 : ℚ)]⟩)]⟩ : StoreCache Unit (List ℚ)) "a").2.1 rfl).1,
   (C9_remove_safe
      (⟨false, [("a", ⟨(none : Option Unit), [(1 : ℚ)]⟩)]⟩ : StoreCache Unit (List ℚ)) "a").2.2⟩

/-- C7: a second handle constructed with an already-registered
`storagePath` attaches to the registered shared state without consulting
the adapter (`exists`/`load` are reached only on the fresh-state branch)
and without changing the registry; and because every handle with that path
aliases the single registry entry, a mutation `f` (an `add`, `remove` or
`clear`) applied through one handle is exactly what the shared state and
`count`/`getAll` show through any other handle with that path. -/
theorem C7_shared_instance {M V : Type} (sp : StorageProvider M V)
    (reg : Registry M V) (path : String) (cache : StoreCache M V)
    (h : JMap.get reg path = some cache) :
    initStore sp reg path = (reg, cache, false)
  ∧ (∀ f, JMap.get (onPath reg path f) path = some (f cache))
  ∧ (∀ f, countAt (onPath reg path f) path = count (f cache))
  ∧ (∀ f, getAllAt (onPath reg path f) path = getAll (f cache)) := by
  have hset : ∀ f, JMap.get (onPath reg path f) path = some (f cache) := by
    intro f
    simp only [onPath, h]
    exact JMap.get_set_self _ _ _
  refine ⟨by simp [initStore, h], hset, ?_, ?_⟩
  · intro f
    simp only [countAt, hset f]
  · intro f
    simp only [getAllAt, hset f]

/-- C7 witness: with `"p"` registered, re-construction attaches without a
load, and an `add` through one handle is visible to `count` through the
other. -/
theorem C7_witness :
    initStore (⟨fun _ => false, fun _ => []⟩ : StorageProvider Unit (List ℚ))
        [("p", ⟨false, [("a", ⟨none, [1]⟩)]⟩)] "p"
      = ([("p", ⟨false, [("a", ⟨none, [1]⟩)]⟩)], ⟨false, [("a", ⟨none, [1]⟩)]⟩, false)
  ∧ countAt (onPath ([("p", ⟨false, [("a", ⟨none, [1]⟩)]⟩)] : Registry Unit (List ℚ)) "p"
        (fun c => (addPure (ParseResult.arr [(2 : ℚ)]) c ⟨"b", none⟩).1)) "p" = 2 :=
  ⟨(C7_shared_instance (⟨fun _ => false, fun _ => []⟩ : StorageProvider Unit (List ℚ))
      [("p", ⟨false, [("a", ⟨none, [1]⟩)]⟩)] "p" ⟨false, [("a", ⟨none, [1]⟩)]⟩ rfl).1,
   ((C7_shared_instance (⟨fun _ => false, fun _ => []⟩ : StorageProvider Unit (List ℚ))
      [("p", ⟨false, [("a", ⟨none, [1]⟩)]⟩)] "p" ⟨false, [("a", ⟨none, [1]⟩)]⟩ rfl).2.2.1
      (fun c => (addPure (ParseResult.arr [(2 : ℚ)]) c ⟨"b", none⟩).1)).trans rfl⟩

namespace JMap

theorem hasKey_iff_mem (m : JMap β) (k : String) :
    hasKey m k = true ↔ k ∈ m.map (·.1) := by
  rw [hasKey, List.any_eq_true]
  constructor
  · rintro ⟨e, he, hek⟩
    rw [beq_iff_eq] at hek
    exact hek ▸ List.mem_map_of_mem _ he
  · intro hm
    rcases List.mem_map.mp hm with ⟨e, he, hek⟩
    exact ⟨e, he, by simp [hek]⟩

end JMap

namespace VectorStore

theorem trimLoop_suffix {M V : Type} (size : List (SerEntry M V) → ℕ)
    (b : ℚ) (l : List (SerEntry M V)) : trimLoop size b l <:+ l := by
  induction l with
  | nil => exact List.suffix_refl _
  | cons x xs ih =>
    rw [trimLoop]
    split
    · exact ih.trans (List.suffix_cons x xs)
    · exact List.suffix_refl _

theorem trimLoop_fits_or_nil {M V : Type} (size : List (SerEntry M V) → ℕ)
    (b : ℚ) (l : List (SerEntry M V)) :
    ¬ b < (size (trimLoop size b l) : ℚ) ∨ trimLoop size b l = [] := by
  induction l with
  | nil => exact Or.inr rfl
  | cons x xs ih =>
    rw [trimLoop]
    split
    · exact ih
    · rename_i hc
      exact Or.inl hc

theorem trimLoop_maximal {M V : Type} (size : List (SerEntry M V) → ℕ)
    (b : ℚ) (l : List (SerEntry M V)) (s : List (SerEntry M V))
    (hs : s <:+ l) (hfit : ¬ b < (size s : ℚ)) :
    s.length ≤ (trimLoop size b l).length := by
  induction l with
  | nil => exact (List.IsSuffix.length_le hs).trans (by simp [trimLoop])
  | cons x xs ih =>
    rw [trimLoop]
    split
    · rename_i hc
      rcases List.suffix_cons_iff.mp hs with hs' | hs'
      · exact absurd hc (hs' ▸ hfit)
      · exact ih hs'
    · exact List.IsSuffix.length_le hs

/-- The sequential rebuild `store.clear(); for (item of data) store.set(...)`
produces the association list itself when the keys are distinct and not
already present. -/
theorem foldl_set_eq_append {β : Type} (l : List (String × β)) (acc : JMap β)
    (hd : (((acc ++ l).map (·.1)).Nodup)) :
    l.foldl (fun m e => JMap.set m e.1 e.2) acc = acc ++ l := by
  induction l generalizing acc with
  | nil => simp
  | cons e l ih =>
    have hk : ¬ JMap.hasKey acc e.1 = true := by
      rw [JMap.hasKey_iff_mem]
      intro hmem
      have : ((acc ++ e :: l).map (·.1)).Nodup := hd
      rw [List.map_append, List.nodup_append] at this
      exact this.2.2 hmem (by simp)
    rw [List.foldl_cons, JMap.set_of_not_hasKey acc e.1 e.2 hk]
    have := ih (acc ++ [e]) (by simpa using hd)
    simpa using this

end VectorStore

/-- C4: when the serialized snapshot exceeds the size bound, the scheduled
save task evicts serialized entries from the front (oldest-inserted
first), re-measuring after each removal, until it fits or nothing is left;
the data handed to the adapter's `save` is exactly the surviving suffix —
the longest suffix of most-recently-inserted entries that fits — and the
backing map is rebuilt to contain exactly those entries, the evicted ones
being gone from both; `dirty` clears. -/
theorem C4_size_bound_eviction {M V : Type}
    (size : List (SerEntry M V) → ℕ) (mb : ℚ) (st : StoreCache M V)
    (hnd : ((st.store.map (·.1)).Nodup))
    (hne : 0 < st.store.length)
    (hex : (if mb = 0 then 500 else mb) * 1024 * 1024
            < (size (st.store.map serializeItem) : ℚ)) :
    saveTask size mb st
      = (⟨false, (trimLoop size ((if mb = 0 then 500 else mb) * 1024 * 1024)
            (st.store.map serializeItem)).map deserializeItem⟩,
         trimLoop size ((if mb = 0 then 500 else mb) * 1024 * 1024)
            (st.store.map serializeItem))
  ∧ trimLoop size ((if mb = 0 then 500 else mb) * 1024 * 1024)
        (st.store.map serializeItem) <:+ st.store.map serializeItem
  ∧ (¬ (if mb = 0 then 500 else mb) * 1024 * 1024
        < (size (trimLoop size ((if mb = 0 then 500 else mb) * 1024 * 1024)
            (st.store.map serializeItem)) : ℚ)
     ∨ trimLoop size ((if mb = 0 then 500 else mb) * 1024 * 1024)
            (st.store.map serializeItem) = [])
  ∧ (∀ s, s <:+ st.store.map serializeItem →
        ¬ (if mb = 0 then 500 else mb) * 1024 * 1024 < (size s : ℚ) →
        s.length ≤ (trimLoop size ((if mb = 0 then 500 else mb) * 1024 * 1024)
            (st.store.map serializeItem)).length)
  ∧ (∀ c, c ∉ (trimLoop size ((if mb = 0 then 500 else mb) * 1024 * 1024)
            (st.store.map serializeItem)).map (·.1) →
        JMap.get (saveTask size mb st).1.store c = none) := by
  set msb : ℚ := (if mb = 0 then 500 else mb) * 1024 * 1024 with hmsb
  set serialized := st.store.map VectorStore.serializeItem with hser
  set trimmed := VectorStore.trimLoop size msb serialized with htr
  have hkeys : serialized.map (·.1) = st.store.map (·.1) := by
    rw [hser, List.map_map]
    rfl
  have hsuffix : trimmed <:+ serialized := VectorStore.trimLoop_suffix _ _ _
  have htrnd : ((trimmed.map deserializeItem).map (·.1)).Nodup := by
    have h1 : (trimmed.map deserializeItem).map (·.1) = trimmed.map (·.1) := by
      rw [List.map_map]; rfl
    rw [h1]
    exact (hkeys ▸ hnd : (serialized.map (·.1)).Nodup).sublist
      (hsuffix.sublist.map _)
  have hmain : saveTask size mb st
      = (⟨false, trimmed.map VectorStore.deserializeItem⟩, trimmed) := by
    rw [VectorStore.saveTask]
    simp only [← hser, ← hmsb]
    rw [if_pos ⟨hex, by simpa [hser] using hne⟩]
    have hfold : trimmed.foldl
        (fun m item => JMap.set m (VectorStore.deserializeItem item).1
          (VectorStore.deserializeItem item).2) []
        = trimmed.map VectorStore.deserializeItem := by
      have heq : trimmed.foldl
          (fun m item => JMap.set m (VectorStore.deserializeItem item).1
            (VectorStore.deserializeItem item).2) []
          = (trimmed.map VectorStore.deserializeItem).foldl
              (fun m e => JMap.set m e.1 e.2) [] := by
        rw [List.foldl_map]
      rw [heq]
      simpa using VectorStore.foldl_set_eq_append
        (trimmed.map VectorStore.deserializeItem) [] (by simpa using htrnd)
    rw [hfold]
  refine ⟨hmain, hsuffix, VectorStore.trimLoop_fits_or_nil _ _ _,
    fun s hs hf => VectorStore.trimLoop_maximal _ _ _ s hs hf, ?_⟩
  intro c hc
  rw [hmain]
  rw [JMap.get_eq_none_iff]
  intro hmem
  apply hc
  have : (trimmed.map VectorStore.deserializeItem).map (·.1) = trimmed.map (·.1) := by
    rw [List.map_map]; rfl
  exact this ▸ hmem

/-- C4 witness: three 600000-"byte" entries against a 1 MB bound: the
task keeps only the most recent entry `"c"`, both in the adapter payload
and in the rebuilt map. -/
theorem C4_witness :
    (saveTask (fun (l : List (SerEntry Unit (List ℚ))) => 600000 * l.length)
        (1 : ℚ)
        ⟨true, [("a", ⟨none, [1]⟩), ("b", ⟨none, [2]⟩), ("c", ⟨none, [3]⟩)]⟩).2
      = [("c", [3], none)]
  ∧ (saveTask (fun (l : List (SerEntry Unit (List ℚ))) => 600000 * l.length)
        (1 : ℚ)
        ⟨true, [("a", ⟨none, [1]⟩), ("b", ⟨none, [2]⟩), ("c", ⟨none, [3]⟩)]⟩).1
      = ⟨false, [("c", ⟨none, [3]⟩)]⟩ := by
  have h := C4_size_bound_eviction
    (fun (l : List (SerEntry Unit (List ℚ))) => 600000 * l.length)
    (1 : ℚ)
    ⟨true, [("a", ⟨none, [1]⟩), ("b", ⟨none, [2]⟩), ("c", ⟨none, [3]⟩)]⟩
    (by decide) (by decide)
    (by norm_num [VectorStore.serializeItem])
  rw [h.1]
  constructor
  · norm_num [VectorStore.trimLoop, VectorStore.serializeItem]
  · norm_num [VectorStore.trimLoop, VectorStore.serializeItem,
      VectorStore.deserializeItem]

namespace VectorStore

theorem cosineLoop_spec (a b : List ℚ) (h : a.length ≤ b.length)
    (d nA nB : ℚ) :
    cosineLoop a b (some d, some nA, some nB)
      = (some (d + dotQ a b), some (nA + normSq a),
         some (nB + normSq (b.take a.length))) := by
  induction a generalizing b d nA nB with
  | nil => simp [cosineLoop, dotQ, normSq]
  | cons x xs ih =>
    cases b with
    | nil => exact absurd h (by simp)
    | cons y ys =>
      have h' : xs.length ≤ ys.length := by simpa using h
      have hrec := ih ys h' (d + x * y) (nA + x * x) (nB + y * y)
      simp only [cosineLoop, List.head?_cons, List.tail_cons, jsAdd, jsMul]
      rw [hrec]
      simp only [dotQ, normSq, List.zipWith_cons_cons, List.sum_cons,
        List.length_cons, List.take_succ_cons, Prod.mk.injEq,
        Option.some.injEq]
      refine ⟨by ring, by ring, by ring⟩

end VectorStore

/-- C6 counterexample: the candidate vector is the empty vector (whose
norm is zero), the query vector is `[1]`; contrary to the claim, the
score is `NaN` (JS: `b[0]` is `undefined`, so `normB` is `NaN`, the
zero-norm guard does not fire, and the division yields `NaN`), not 0. -/
theorem C6_counterexample :
    cosineSimilarity [1] [] = none ∧ cosineSimilarity [1] [] ≠ some 0 := by
  have hloop : cosineLoop [1] [] (some 0, some 0, some 0)
      = (none, some (0 + 1 * 1), none) := rfl
  have hcond : ¬ ((some (0 + 1 * 1) : Option ℚ) = some 0
      ∨ (none : Option ℚ) = some 0) := by
    rintro (hc | hc)
    · rw [Option.some.injEq] at hc
      norm_num at hc
    · exact Option.noConfusion hc
  have hval : cosineSimilarity [1] [] = none := by
    simp only [cosineSimilarity, hloop]
    rw [if_neg hcond]
  exact ⟨hval, by rw [hval]; exact Option.noConfusion⟩

/-- C6 (amended): for vectors of equal length the score is
`dot(a,b) / (√(normA) · √(normB))`, and it is exactly 0 — never `NaN`,
never a thrown error — whenever either computed norm is zero, including
all-zero vectors and the query being the empty vector; but when the
candidate `b` is shorter than the query `a` the accesses `b[i]` are
`undefined` and the result is `NaN` (`C6_counterexample`), so the
zero-norm-gives-0 guarantee holds only with `b` at least as long as
`a`. -/
theorem C6_cosine_zero_guard (a b : List ℚ) (h : a.length = b.length) :
    ((normSq a = 0 ∨ normSq b = 0) → cosineSimilarity a b = some 0)
  ∧ (normSq a ≠ 0 → normSq b ≠ 0 →
      cosineSimilarity a b
        = some ((dotQ a b : ℝ)
            / (Real.sqrt ((normSq a : ℚ) : ℝ)
                * Real.sqrt ((normSq b : ℚ) : ℝ)))) := by
  have hloop := VectorStore.cosineLoop_spec a b h.le 0 0 0
  rw [h, List.take_length] at hloop
  simp only [zero_add] at hloop
  constructor
  · intro h0
    simp only [cosineSimilarity, hloop]
    rw [if_pos]
    rcases h0 with h0 | h0
    · exact Or.inl (by rw [h0])
    · exact Or.inr (by rw [h0])
  · intro ha hb
    simp only [cosineSimilarity, hloop]
    rw [if_neg]
    rintro (hc | hc) <;> simp only [Option.some.injEq] at hc
    · exact ha hc
    · exact hb hc

/-- C6 witness: a zero query vector against `[5]` scores exactly 0, and
two nonzero one-dimensional vectors score by the cosine formula. -/
theorem C6_witness :
    cosineSimilarity [0] [5] = some 0
  ∧ cosineSimilarity [1] [2]
      = some ((dotQ [1] [2] : ℝ)
          / (Real.sqrt ((normSq [1] : ℚ) : ℝ)
              * Real.sqrt ((normSq [2] : ℚ) : ℝ))) :=
  ⟨(C6_cosine_zero_guard [0] [5] rfl).1
      (Or.inl (by norm_num [normSq, dotQ])),
   (C6_cosine_zero_guard [1] [2] rfl).2
      (by norm_num [normSq, dotQ]) (by norm_num [normSq, dotQ])⟩

namespace VectorStore

theorem similaritySearch_eq {M V S : Type} [LinearOrder S] [Inhabited V]
    (score : V → V → S) (st : StoreCache M V) (q : String) (qv : V)
    (k : Option ℤ) (filter : Option (MemoryDocument M → Bool)) :
    similaritySearch score st q qv k filter
      = (jsSliceTo (List.insertionSort scoreDesc
            ((survivors st filter).map fun item =>
              (item, score (((JMap.get st.store q).map (·.vector)).getD qv)
                ((JMap.get st.store item.content).iget.vector)))) k).map
          (fun r => ⟨r.1.content, r.1.metadata, r.2⟩) := rfl

theorem jsSliceTo_sublist (l : List α) (k : Option ℤ) :
    List.Sublist (jsSliceTo l k) l := by
  cases k with
  | none => exact List.Sublist.refl _
  | some i => exact List.take_sublist _ _

theorem length_jsSliceTo_some (l : List α) (i : ℤ) :
    (jsSliceTo l (some i)).length
      = if i < 0 then l.length - (-i).toNat else min i.toNat l.length := by
  rw [jsSliceTo]
  by_cases hi : i < 0
  · rw [if_pos hi, if_pos hi, List.length_take]
    omega
  · rw [if_neg hi, if_neg hi, List.length_take]
    omega

theorem jsSliceTo_of_length_le (l : List α) (i : ℤ) (h : (l.length : ℤ) ≤ i) :
    jsSliceTo l (some i) = l := by
  rw [jsSliceTo, if_neg (by omega)]
  have hm : (min i (l.length : ℤ)).toNat = l.length := by omega
  rw [hm, List.take_length]

theorem jsSliceTo_zero (l : List α) : jsSliceTo l (some 0) = [] := by
  rw [jsSliceTo, if_neg (lt_irrefl 0)]
  have hm : (min (0 : ℤ) (l.length : ℤ)).toNat = 0 := by omega
  rw [hm, List.take_zero]

theorem map_fst_map_pair {M S : Type} (g : MemoryDocument M → S)
    (l : List (MemoryDocument M)) :
    ((l.map fun item => (item, g item)).map
        (fun p : MemoryDocument M × S => p.1)) = l := by
  induction l with
  | nil => rfl
  | cons a l ih => simp [ih]

end VectorStore

/-- C1 counterexample: a store with two entries and `k = -1`.  The claim
says every `k ≤ 0` yields an empty result, but
`Array.prototype.slice(0, -1)` drops only the last element, so one result
is returned. -/
theorem C1_counterexample :
    (similaritySearch (fun _ _ => (0 : ℚ))
        (⟨false, [("a", ⟨none, [1]⟩), ("b", ⟨none, [1]⟩)]⟩
          : StoreCache Unit (List ℚ))
        "q" [1] (some (-1)) none).length = 1 := by
  decide

/-- C1 (amended): `similaritySearch` returns at most `k` results for
positive `k`, returns all surviving candidates (as a permutation) when at
least as many are requested as survive filtering, returns the results
sorted by descending score for every `k`, and returns an empty sequence
for `k = 0`; but for negative `k` it follows JS `slice(0, k)` semantics
and returns all but the last `|k|` of the sorted results (i.e.
`max(survivors + k, 0)` results), not an empty sequence. -/
theorem C1_k_bound_and_order {M V S : Type} [LinearOrder S] [Inhabited V]
    (score : V → V → S) (st : StoreCache M V) (q : String) (qv : V)
    (filter : Option (MemoryDocument M → Bool)) :
    (∀ i : ℤ, 0 < i →
      (similaritySearch score st q qv (some i) filter).length ≤ i.toNat)
  ∧ (∀ i : ℤ, ((survivors st filter).length : ℤ) ≤ i →
      ((similaritySearch score st q qv (some i) filter).map toDoc).Perm
        (survivors st filter))
  ∧ (∀ k : Option ℤ,
      (similaritySearch score st q qv k filter).Pairwise
        (fun x y => y.score ≤ x.score))
  ∧ similaritySearch score st q qv (some 0) filter = []
  ∧ (∀ i : ℤ, i < 0 →
      (similaritySearch score st q qv (some i) filter).length
        = (survivors st filter).length - (-i).toNat) := by
  set g : MemoryDocument M → S := fun item =>
    score (((JMap.get st.store q).map (·.vector)).getD qv)
      ((JMap.get st.store item.content).iget.vector) with hg
  set scored : List (MemoryDocument M × S) :=
    (survivors st filter).map fun item => (item, g item) with hscored
  set sorted := List.insertionSort scoreDesc scored with hsorted
  have hiss : ∀ k, similaritySearch score st q qv k filter
      = (jsSliceTo sorted k).map (fun r => ⟨r.1.content, r.1.metadata, r.2⟩) :=
    fun k => similaritySearch_eq score st q qv k filter
  have hlen : sorted.length = (survivors st filter).length := by
    rw [hsorted, List.length_insertionSort, hscored, List.length_map]
  refine ⟨?_, ?_, ?_, ?_, ?_⟩
  · intro i hi
    rw [hiss, List.length_map, length_jsSliceTo_some, if_neg (by omega)]
    exact Nat.min_le_left _ _
  · intro i hi
    rw [hiss, jsSliceTo_of_length_le sorted i (by omega)]
    have hcomp : ((sorted.map fun r => (⟨r.1.content, r.1.metadata, r.2⟩
        : SearchResult M S)).map toDoc)
        = sorted.map (fun p : MemoryDocument M × S => p.1) := by
      rw [List.map_map]
      rfl
    rw [hcomp]
    have hperm := (List.perm_insertionSort scoreDesc scored).map
      (fun p : MemoryDocument M × S => p.1)
    rw [hscored] at hperm
    rw [map_fst_map_pair] at hperm
    exact hperm
  · intro k
    have hs : List.Sorted scoreDesc sorted :=
      List.sorted_insertionSort scoreDesc scored
    have hsl : (jsSliceTo sorted k).Pairwise scoreDesc :=
      hs.sublist (jsSliceTo_sublist sorted k)
    rw [hiss]
    exact List.pairwise_map.mpr hsl
  · rw [hiss, jsSliceTo_zero, List.map_nil]
  · intro i hi
    rw [hiss, List.length_map, length_jsSliceTo_some, if_pos hi, hlen]

/-- C1 witness: over a two-entry store, `k = 1` caps the results at one,
`k = 5` returns both survivors, `k = 0` returns nothing, and `k = -1`
returns one result. -/
theorem C1_witness :
    (similaritySearch (fun _ _ => (0 : ℚ))
        (⟨false, [("a", ⟨none, [1]⟩), ("b", ⟨none, [1]⟩)]⟩
          : StoreCache Unit (List ℚ)) "q" [1] (some 1) none).length ≤ 1
  ∧ ((similaritySearch (fun _ _ => (0 : ℚ))
        (⟨false, [("a", ⟨none, [1]⟩), ("b", ⟨none, [1]⟩)]⟩
          : StoreCache Unit (List ℚ)) "q" [1] (some 5) none).map toDoc).Perm
      (survivors (⟨false, [("a", ⟨none, [1]⟩), ("b", ⟨none, [1]⟩)]⟩
          : StoreCache Unit (List ℚ)) none)
  ∧ similaritySearch (fun _ _ => (0 : ℚ))
        (⟨false, [("a", ⟨none, [1]⟩), ("b", ⟨none, [1]⟩)]⟩
          : StoreCache Unit (List ℚ)) "q" [1] (some 0) none = []
  ∧ (similaritySearch (fun _ _ => (0 : ℚ))
        (⟨false, [("a", ⟨none, [1]⟩), ("b", ⟨none, [1]⟩)]⟩
          : StoreCache Unit (List ℚ)) "q" [1] (some (-1)) none).length = 1 := by
  have h := C1_k_bound_and_order (fun _ _ => (0 : ℚ))
    (⟨false, [("a", ⟨none, [1]⟩), ("b", ⟨none, [1]⟩)]⟩
      : StoreCache Unit (List ℚ)) "q" [1] none
  exact ⟨h.1 1 (by decide), h.2.1 5 (by decide), h.2.2.2.1,
    (h.2.2.2.2 (-1) (by decide)).trans (by decide)⟩

/-- C2: the current implementation declares `k?: number` with no default
and calls `slice(0, k)`, so an omitted `k` slices to the end: a
five-entry store returns all five results instead of the documented
top 4 (`README`: "default k=4"; the earlier implementation had
`k: number = 4`). -/
theorem C2_no_default_k :
    (similaritySearch (fun _ _ => (0 : ℚ))
        (⟨false, [("a", ⟨none, [1]⟩), ("b", ⟨none, [1]⟩), ("c", ⟨none, [1]⟩),
                  ("d", ⟨none, [1]⟩), ("e", ⟨none, [1]⟩)]⟩
          : StoreCache Unit (List ℚ))
        "q" [1] none none).length = 5 := by
  decide

end MemoryVectorStore
